import Mathlib

/-!
Shallow embedding of the PDF-processing pipeline (process.py) and proofs about
its classification, OCR, image-extraction, index-building and batch logic.

External tools (pdffonts, ocrmypdf, pdfimages, the PIL codec) are modelled as
oracles supplying their observable results: captured exit code and output text,
the set of files they produce, and per-file re-encode success.  Directories are
modelled as association lists from file name to file content.  Python sorted( )
is a stable sort by the case-sensitive code-point order on names (POSIX path
comparison); it is embedded as insertion sort over that order, which computes
the same list.  Python str.splitlines and str.strip are embedded on character
lists with the newline character as line separator, matching their behaviour on
the tool output involved here.
-/

-- Python-style string helpers -----------------------------------------------

/-- Characters Python str.strip removes (ASCII whitespace as produced here). -/
def isPySpace (c : Char) : Bool :=
  c == ' ' || c == '\t' || c == '\n' || c == '\r' || c == Char.ofNat 11 || c == Char.ofNat 12

/-- Python str.strip on a character list: drop whitespace at both ends. -/
def pyStripChars (cs : List Char) : List Char :=
  ((cs.dropWhile isPySpace).reverse.dropWhile isPySpace).reverse

/-- Python str.strip. -/
def pythonStrip (s : String) : String := String.mk (pyStripChars s.data)

/-- Helper for Python str.splitlines: acc holds the current line reversed. -/
def pySplitlinesAux : List Char → List Char → List (List Char)
  | acc, [] => if acc.isEmpty then [] else [acc.reverse]
  | acc, c :: rest =>
    if c = '\n' then acc.reverse :: pySplitlinesAux [] rest
    else pySplitlinesAux (c :: acc) rest

/-- Python str.splitlines with the newline character as separator: a trailing
newline does not open an extra empty line, and the empty string has no lines. -/
def pythonSplitlines (s : String) : List String :=
  (pySplitlinesAux [] s.data).map String.mk

/-- Lexicographic strict order on character lists by code point, the order
Python uses to compare strings (and POSIX paths). -/
def charListLt : List Char → List Char → Bool
  | _, [] => false
  | [], _ :: _ => true
  | a :: as, b :: bs => if a < b then true else if b < a then false else charListLt as bs

/-- Python string less-than. -/
def strLtB (a b : String) : Bool := charListLt a.data b.data

/-- Python string less-or-equal (total order, so the negation of the reverse). -/
def strLeB (a b : String) : Bool := !(strLtB b a)

/-- Python sorted( ) on file names: stable sort by the code-point order.
Insertion sort is stable, so it returns the same list as Python sorted. -/
def pySorted (l : List String) : List String :=
  l.insertionSort (fun a b => strLeB a b = true)

-- External command results ---------------------------------------------------

/-- Result of PDFProcessor.run_cmd: exit code plus captured stdout and stderr. -/
structure CmdResult where
  code : Int
  stdout : String
  stderr : String

-- Classifier (PDFProcessor.is_digital_pdf, process.py lines 23-27) -----------

/-- PDFProcessor.is_digital_pdf: run pdffonts, strip and split its stdout into
lines, and report digital exactly when more than two lines remain.  The exit
code and stderr of the invocation are discarded, as in the source. -/
def is_digital_pdf (r : CmdResult) : Bool :=
  decide (2 < (pythonSplitlines (pythonStrip r.stdout)).length)

-- OCR stage (PDFProcessor.run_ocr, process.py lines 29-49) -------------------

/-- Observable outcome of one ocrmypdf invocation: the captured exit code and
streams, and the state of the target output file after the call. -/
structure OcrOutcome where
  code : Int
  stdout : String
  stderr : String
  outputExists : Bool
  outputSize : Nat

/-- PDFProcessor.run_ocr: invoke the OCR transformer, then report success iff
the output file exists with non-zero size; the exit code is never consulted. -/
def run_ocr (o : OcrOutcome) : Bool :=
  o.outputExists && decide (0 < o.outputSize)

-- Directory model ------------------------------------------------------------

/-- A directory as an association list from file name to file content. -/
abbrev ImgFS := List (String × String)

/-- Keep only the files whose name satisfies q. -/
def fsFilterKeys {α : Type} (q : String → Bool) (fs : List (String × α)) : List (String × α) :=
  fs.filter (fun p => q p.1)

/-- Write a file, replacing any file of the same name. -/
def fsWrite {α : Type} (fs : List (String × α)) (k : String) (v : α) : List (String × α) :=
  (k, v) :: fsFilterKeys (fun n => !(n == k)) fs

/-- Delete a file by name (missing file allowed). -/
def fsDelete {α : Type} (fs : List (String × α)) (k : String) : List (String × α) :=
  fsFilterKeys (fun n => !(n == k)) fs

/-- Names of the files in a directory. -/
def fsKeys {α : Type} (fs : List (String × α)) : List String := fs.map Prod.fst

/-- Content of a named file, if present. -/
def fsLookup {α : Type} (fs : List (String × α)) (k : String) : Option α := fs.lookup k

-- Image extraction (PDFProcessor.extract_images, process.py lines 51-82) -----

/-- One figure entry as built by extract_images and by the manual indexer. -/
structure FigureRecord where
  figure_ID : String
  caption : String
  image_path : String
deriving DecidableEq, Repr

/-- Oracle for one extract_images run: which raw files pdfimages produces
(as name suffixes appended to the raw prefix), their contents, and whether
the PIL open-and-save re-encode succeeds on a given raw file. -/
structure ExtractEnv where
  rawSuffixes : List String
  rawContent : String → String
  convertOk : String → Bool

/-- The raw-file name stem used by extract_images, f-string stem RAW. -/
def rawPrefixStr (stem : String) : String := stem ++ "_RAW_"

/-- A name pdfimages gives to one produced raw file. -/
def mkRawName (stem sfx : String) : String := rawPrefixStr stem ++ sfx ++ ".png"

/-- Whether a file name matches the glob pattern stem RAW star dot png:
the raw prefix, then any characters, then the png extension. -/
def globRawMatch (stem name : String) : Bool :=
  (rawPrefixStr stem).data.isPrefixOf name.data
    && ".png".data.isSuffixOf name.data
    && decide ((rawPrefixStr stem).data.length + 4 ≤ name.data.length)

/-- Step 1 of extract_images: unlink every leftover raw file of this stem. -/
def cleanRaws (stem : String) (fs : ImgFS) : ImgFS :=
  fsFilterKeys (fun n => !globRawMatch stem n) fs

/-- Step 2 of extract_images: pdfimages writes its raw files. -/
def writeRaws (env : ExtractEnv) (stem : String) (fs : ImgFS) : ImgFS :=
  env.rawSuffixes.foldl (fun acc sfx => fsWrite acc (mkRawName stem sfx) (env.rawContent sfx)) fs

/-- Step 3 of extract_images: collect the raw files of this stem, sorted. -/
def rawsOf (env : ExtractEnv) (stem : String) (fs : ImgFS) : List String :=
  pySorted ((fsKeys (writeRaws env stem (cleanRaws stem fs))).filter (globRawMatch stem))

/-- Target name for sequence number idx, f-string F idx dot png. -/
def figName (i : Nat) : String := "F" ++ toString i ++ ".png"

/-- The renaming loop of extract_images: enumerate(raw_images, start=1), so
idx advances for every raw file; on re-encode success write the target file,
unlink the raw file and append a FigureRecord, on failure just continue. -/
def convertLoop (env : ExtractEnv) (stem : String) :
    List String → Nat → ImgFS → List FigureRecord × ImgFS
  | [], _, fs => ([], fs)
  | raw :: rest, idx, fs =>
    if env.convertOk raw then
      let fs1 := fsDelete (fsWrite fs (figName idx) ((fsLookup fs raw).getD "")) raw
      let r := convertLoop env stem rest (idx + 1) fs1
      ({ figure_ID := figName idx, caption := "",
         image_path := "data/research_center/" ++ stem ++ "/" ++ figName idx } :: r.1, r.2)
    else
      convertLoop env stem rest (idx + 1) fs

/-- PDFProcessor.extract_images: clean leftover raw files, run pdfimages,
collect and sort the raw files, then rename and re-encode them in order,
returning the figure list and the final state of the images directory. -/
def extract_images (env : ExtractEnv) (stem : String) (fs : ImgFS) :
    List FigureRecord × ImgFS :=
  convertLoop env stem (rawsOf env stem fs) 1 (writeRaws env stem (cleanRaws stem fs))

-- JSON model ------------------------------------------------------------------

/-- JSON values with insertion-ordered object fields, as json.dump emits them. -/
inductive JVal where
  | str : String → JVal
  | null : JVal
  | arr : List JVal → JVal
  | obj : List (String × JVal) → JVal

/-- The JSON object for one figure entry. -/
def figureJson (f : FigureRecord) : JVal :=
  .obj [("figure_ID", .str f.figure_ID), ("caption", .str f.caption),
        ("image_path", .str f.image_path)]

/-- Keys of a top-level JSON object, in emission order. -/
def topKeys : JVal → List String
  | .obj fields => fields.map Prod.fst
  | _ => []

/-- Value of a named field of a top-level JSON object. -/
def topLookup (v : JVal) (k : String) : Option JVal :=
  match v with
  | .obj fields => fields.lookup k
  | _ => none

-- Index builder (PDFProcessor.build_index_json, process.py lines 84-113) -----

/-- The result dict assembled by build_index_json, field for field. -/
def build_index_json_content (pdf_name pdf_stem : String) (figures : List FigureRecord) : JVal :=
  .obj [("paper_ID", .str pdf_stem),
        ("access", .str "private"),
        ("paper_access", .str "private"),
        ("paper_title", .str ""),
        ("authors", .arr []),
        ("pdf_id", .str pdf_name),
        ("pdf_path", .str ("data/research_center/" ++ pdf_stem ++ "/" ++ pdf_name)),
        ("year", .null),
        ("journal", .str ""),
        ("figures", .arr (figures.map figureJson)),
        ("citation", .obj [("APA", .str "")])]

/-- The metadata directory as an association list of JSON files. -/
abbrev MetaFS := List (String × JVal)

/-- PDFProcessor.build_index_json: assemble the record and write it to the
file stem index JSON in the metadata directory, replacing any prior file. -/
def build_index_json (pdf_name pdf_stem : String) (figures : List FigureRecord)
    (meta : MetaFS) : MetaFS :=
  fsWrite meta (pdf_stem ++ "_index.JSON") (build_index_json_content pdf_name pdf_stem figures)

-- Manual indexer (ManualImageIndexer.build_from_images, lines 173-224) -------

/-- Python pathlib suffix of a file name: the part from the last dot on,
empty when there is no dot, the dot is first, or the dot is last. -/
def pathSuffix (name : String) : String :=
  match (name.data.enum.filter (fun p => p.2 == '.')).getLast? with
  | none => ""
  | some p =>
    if 0 < p.1 && p.1 + 1 < name.data.length then String.mk (name.data.drop p.1) else ""

/-- Python pathlib stem of a file name: the name with its suffix removed. -/
def pathStem (name : String) : String :=
  String.mk (name.data.take (name.data.length - (pathSuffix name).data.length))

/-- Python str.lower on the ASCII names involved. -/
def lowerStr (s : String) : String := String.mk (s.data.map Char.toLower)

/-- The extension filter of build_from_images: suffix lowered is png, jpg or
jpeg. -/
def isImageFile (name : String) : Bool :=
  [".png", ".jpg", ".jpeg"].contains (lowerStr (pathSuffix name))

/-- The figure list built by build_from_images: filter by extension, sort by
name, keep the original file name as figure_ID. -/
def build_from_images_figures (paper_id : String) (entries : List String) : List FigureRecord :=
  (pySorted (entries.filter isImageFile)).map (fun n =>
    { figure_ID := n, caption := "",
      image_path := "data/research_center/" ++ paper_id ++ "/" ++ n })

/-- The result dict assembled by build_from_images, field for field; pdf_id
and pdf_path are synthesized from paper_id assuming a paper_id dot pdf name. -/
def build_from_images_content (paper_id : String) (figures : List FigureRecord) : JVal :=
  .obj [("paper_ID", .str paper_id),
        ("access", .str "private"),
        ("paper_access", .str "private"),
        ("paper_title", .str ""),
        ("authors", .arr []),
        ("pdf_id", .str (paper_id ++ ".pdf")),
        ("pdf_path", .str ("data/research_center/" ++ paper_id ++ "/" ++ paper_id ++ ".pdf")),
        ("year", .null),
        ("journal", .str ""),
        ("figures", .arr (figures.map figureJson)),
        ("citation", .obj [("APA", .str "")])]

/-- ManualImageIndexer.build_from_images: a missing folder (none) or a folder
with no matching image files returns without writing; otherwise the index is
written to paper_id index JSON in the metadata directory. -/
def build_from_images (paper_id : String) (folder : Option (List String))
    (meta : MetaFS) : MetaFS :=
  match folder with
  | none => meta
  | some entries =>
    if (entries.filter isImageFile).isEmpty then meta
    else
      fsWrite meta (paper_id ++ "_index.JSON")
        (build_from_images_content paper_id (build_from_images_figures paper_id entries))

-- Batch orchestration (process.py lines 115-158) ------------------------------

/-- Per-document oracle data for a batch run: the pdffonts invocation result,
the ocrmypdf outcome, and the pdfimages and re-encode behaviour. -/
structure DocEnv where
  fontCode : Int
  fontOut : String
  fontErr : String
  ocrOutcome : OcrOutcome
  rawSuffixes : List String
  rawContent : String → String
  convertOk : String → Bool

/-- Environment of a batch run: the pdf files found in the input directory
and the oracle data for each of them. -/
structure BatchEnv where
  inputPdfs : List String
  doc : String → DocEnv

/-- The pdffonts result for one document. -/
def docCmdResult (d : DocEnv) : CmdResult :=
  { code := d.fontCode, stdout := d.fontOut, stderr := d.fontErr }

/-- The extraction oracle for one document. -/
def docExtractEnv (d : DocEnv) : ExtractEnv :=
  { rawSuffixes := d.rawSuffixes, rawContent := d.rawContent, convertOk := d.convertOk }

/-- What ocr_only_all did for one document: skipped it because fonts were
detected, or ran OCR on it with the given success value. -/
inductive OcrEvent where
  | skippedDigital : String → OcrEvent
  | ocrDone : String → Bool → OcrEvent
deriving DecidableEq, Repr

/-- The document an OcrEvent is about. -/
def eventPdf : OcrEvent → String
  | .skippedDigital p => p
  | .ocrDone p _ => p

/-- Loop body of PDFProcessor.ocr_only_all over the sorted pdf list: skip
digital documents, run OCR on the rest, and always continue to the next. -/
def ocr_loop (env : BatchEnv) : List String → List OcrEvent
  | [] => []
  | pdf :: rest =>
    if is_digital_pdf (docCmdResult (env.doc pdf)) then
      .skippedDigital pdf :: ocr_loop env rest
    else
      .ocrDone pdf (run_ocr (env.doc pdf).ocrOutcome) :: ocr_loop env rest

/-- PDFProcessor.ocr_only_all: iterate the sorted input pdfs; an empty input
directory just returns. -/
def ocr_only_all (env : BatchEnv) : List OcrEvent :=
  ocr_loop env (pySorted env.inputPdfs)

/-- The images and metadata directories threaded through a batch run. -/
structure PipeState where
  images : ImgFS
  meta : MetaFS

/-- Loop body of PDFProcessor.extract_images_and_json_all over the sorted pdf
list: a non-digital document gets an index with an empty figure list, a
digital one gets extraction followed by the index build; the trace records
the figure list each index was built from. -/
def extract_loop (env : BatchEnv) :
    List String → PipeState → PipeState × List (String × List FigureRecord)
  | [], st => (st, [])
  | pdf :: rest, st =>
    let d := env.doc pdf
    let stem := pathStem pdf
    if is_digital_pdf (docCmdResult d) then
      let pr := extract_images (docExtractEnv d) stem st.images
      let st1 : PipeState := { images := pr.2, meta := build_index_json pdf stem pr.1 st.meta }
      let r := extract_loop env rest st1
      (r.1, (pdf, pr.1) :: r.2)
    else
      let st1 : PipeState := { images := st.images, meta := build_index_json pdf stem [] st.meta }
      let r := extract_loop env rest st1
      (r.1, (pdf, []) :: r.2)

/-- PDFProcessor.extract_images_and_json_all: iterate the sorted input pdfs;
an empty input directory just returns. -/
def extract_images_and_json_all (env : BatchEnv) (st : PipeState) :
    PipeState × List (String × List FigureRecord) :=
  extract_loop env (pySorted env.inputPdfs) st

-- Specification-side helpers used only in theorem statements ------------------

/-- The 1-based positions, counted from i, of the list elements satisfying ok:
the sequence numbers the renaming loop actually hands out. -/
def successIndices (ok : String → Bool) : List String → Nat → List Nat
  | [], _ => []
  | r :: rest, i =>
    if ok r then i :: successIndices ok rest (i + 1) else successIndices ok rest (i + 1)

-- Concrete oracle instances used in counterexamples and witnesses ------------

/-- Two raw images for stem P1; the re-encode fails on the first one. -/
def envC3 : ExtractEnv :=
  { rawSuffixes := ["-000", "-001"],
    rawContent := fun s => "raw" ++ s,
    convertOk := fun r => r == "P1_RAW_-001.png" }

/-- One raw image for stem P2; every re-encode succeeds. -/
def envC4 : ExtractEnv :=
  { rawSuffixes := ["-000"], rawContent := fun _ => "imageP2", convertOk := fun _ => true }

/-- An images directory already holding the first figure of another document. -/
def fsC4 : ImgFS := [("F1.png", "figureP1")]

/-- One raw image for stem P3; its re-encode fails. -/
def envC5 : ExtractEnv :=
  { rawSuffixes := ["-000"], rawContent := fun _ => "c", convertOk := fun _ => false }

/-- A one-document batch whose pdffonts output is empty (not digital). -/
def envW10 : BatchEnv :=
  { inputPdfs := ["s1.pdf"],
    doc := fun _ =>
      { fontCode := 0, fontOut := "", fontErr := "",
        ocrOutcome := { code := 0, stdout := "", stderr := "", outputExists := true, outputSize := 1 },
        rawSuffixes := [], rawContent := fun _ => "", convertOk := fun _ => true } }

/-- Empty starting directories for the batch witnesses. -/
def stW10 : PipeState := { images := [], meta := [] }

-- Association-list directory lemmas ------------------------------------------

theorem fsLookup_cons {α : Type} (k : String) (v : α) (t : List (String × α)) (name : String) :
    fsLookup ((k, v) :: t) name = if name = k then some v else fsLookup t name := by
  by_cases h : name = k
  · subst h; simp [fsLookup, List.lookup_cons]
  · have hb : (name == k) = false := beq_eq_false_iff_ne.mpr h
    simp [fsLookup, List.lookup_cons, hb, h]

theorem lookup_fsFilterKeys {α : Type} (q : String → Bool) (fs : List (String × α))
    (name : String) (h : q name = true) :
    fsLookup (fsFilterKeys q fs) name = fsLookup fs name := by
  induction fs with
  | nil => rfl
  | cons p t ih =>
    obtain ⟨k, v⟩ := p
    by_cases hk : name = k
    · subst hk
      simp only [fsFilterKeys, List.filter_cons, h, if_true]
      rw [fsLookup_cons, fsLookup_cons, if_pos rfl, if_pos rfl]
    · simp only [fsFilterKeys, List.filter_cons]
      by_cases hq : q k
      · simp only [hq, if_true]
        rw [fsLookup_cons, fsLookup_cons, if_neg hk, if_neg hk]
        exact ih
      · simp only [hq, Bool.false_eq_true, if_false]
        rw [fsLookup_cons, if_neg hk]
        exact ih

theorem lookup_fsWrite {α : Type} (fs : List (String × α)) (k : String) (v : α) (name : String) :
    fsLookup (fsWrite fs k v) name = if name = k then some v else fsLookup fs name := by
  unfold fsWrite
  rw [fsLookup_cons]
  by_cases h : name = k
  · simp [h]
  · have hb : (name == k) = false := beq_eq_false_iff_ne.mpr h
    rw [if_neg h, if_neg h]
    exact lookup_fsFilterKeys _ fs name (by simp [hb])

theorem lookup_fsDelete {α : Type} (fs : List (String × α)) (k : String) (name : String)
    (h : name ≠ k) : fsLookup (fsDelete fs k) name = fsLookup fs name := by
  unfold fsDelete
  exact lookup_fsFilterKeys _ fs name (by simp [beq_eq_false_iff_ne.mpr h])

theorem keys_fsFilterKeys {α : Type} (q : String → Bool) (fs : List (String × α)) :
    fsKeys (fsFilterKeys q fs) = (fsKeys fs).filter q := by
  induction fs with
  | nil => rfl
  | cons p t ih =>
    obtain ⟨k, v⟩ := p
    simp only [fsFilterKeys, fsKeys, List.filter_cons, List.map_cons]
    by_cases hq : q k
    · simp only [hq, if_true, List.map_cons]
      exact congrArg _ ih
    · simp only [hq, Bool.false_eq_true, if_false]
      exact ih

theorem mem_keys_fsWrite {α : Type} (fs : List (String × α)) (k : String) (v : α) (name : String) :
    name ∈ fsKeys (fsWrite fs k v) ↔ name = k ∨ (name ∈ fsKeys fs ∧ name ≠ k) := by
  unfold fsWrite
  show name ∈ fsKeys ((k, v) :: fsFilterKeys _ fs) ↔ _
  simp only [fsKeys, List.map_cons, List.mem_cons]
  rw [show (fsFilterKeys (fun n => !(n == k)) fs).map Prod.fst
        = fsKeys (fsFilterKeys (fun n => !(n == k)) fs) from rfl, keys_fsFilterKeys]
  simp only [List.mem_filter, Bool.not_eq_eq_eq_not, Bool.not_true, beq_eq_false_iff_ne]
  constructor
  · rintro (h | h)
    · exact Or.inl h
    · exact Or.inr ⟨h.1, h.2⟩
  · rintro (h | h)
    · exact Or.inl h
    · exact Or.inr ⟨h.1, h.2⟩

theorem mem_keys_fsDelete {α : Type} (fs : List (String × α)) (k : String) (name : String) :
    name ∈ fsKeys (fsDelete fs k) ↔ name ∈ fsKeys fs ∧ name ≠ k := by
  unfold fsDelete
  rw [keys_fsFilterKeys]
  simp only [List.mem_filter, Bool.not_eq_eq_eq_not, Bool.not_true, beq_eq_false_iff_ne]

theorem fsFilterKeys_idem {α : Type} (q : String → Bool) (fs : List (String × α)) :
    fsFilterKeys q (fsFilterKeys q fs) = fsFilterKeys q fs := by
  unfold fsFilterKeys
  rw [List.filter_filter]
  simp

theorem fsWrite_idem {α : Type} (fs : List (String × α)) (k : String) (v : α) :
    fsWrite (fsWrite fs k v) k v = fsWrite fs k v := by
  unfold fsWrite
  congr 1
  rw [show fsFilterKeys (fun n => !(n == k)) ((k, v) :: fsFilterKeys (fun n => !(n == k)) fs)
        = fsFilterKeys (fun n => !(n == k)) (fsFilterKeys (fun n => !(n == k)) fs) by
      unfold fsFilterKeys; rw [List.filter_cons]; simp]
  exact fsFilterKeys_idem _ fs

-- C1 and C2 -------------------------------------------------------------------

/-- C1: the classifier reports digital exactly when the stripped font report
has more than two lines; the exit code and stderr never influence the result,
and a failed invocation with empty output is classified as scanned. -/
theorem is_digital_pdf_iff_lines (r : CmdResult) :
    (is_digital_pdf r = true ↔ 2 < (pythonSplitlines (pythonStrip r.stdout)).length)
    ∧ (∀ c e, is_digital_pdf { code := c, stdout := r.stdout, stderr := e } = is_digital_pdf r)
    ∧ is_digital_pdf { code := 1, stdout := "", stderr := "pdffonts failed" } = false :=
  ⟨by simp [is_digital_pdf], fun _ _ => rfl, by decide⟩

/-- C2: run_ocr succeeds exactly when the output file exists with non-zero
size after the invocation; the exit code, stdout and stderr of the
transformer never influence the result, and exit 0 with an empty or missing
output file yields failure. -/
theorem run_ocr_iff_output (o : OcrOutcome) :
    (run_ocr o = true ↔ o.outputExists = true ∧ 0 < o.outputSize)
    ∧ (∀ c s e, run_ocr { code := c, stdout := s, stderr := e, outputExists := o.outputExists, outputSize := o.outputSize } = run_ocr o)
    ∧ run_ocr { code := 0, stdout := "", stderr := "", outputExists := true, outputSize := 0 } = false
    ∧ run_ocr { code := 0, stdout := "", stderr := "", outputExists := false, outputSize := 3 } = false :=
  ⟨by simp [run_ocr], fun _ _ _ => rfl, rfl, rfl⟩

-- C6: manual indexing of a mixed folder ---------------------------------------

/-- C6 counterexample: on the folder a.png, B.JPG, skip.txt the records come
out as B.JPG then a.png, not a.png then B.JPG as the claim states, because
Python sorted( ) compares names case-sensitively and uppercase letters order
before lowercase ones. -/
theorem build_from_images_order_counterexample :
    (build_from_images_figures "P7" ["a.png", "B.JPG", "skip.txt"]).map FigureRecord.figure_ID
      = ["B.JPG", "a.png"]
    ∧ ["B.JPG", "a.png"] ≠ ["a.png", "B.JPG"] :=
  ⟨by decide, by decide⟩

/-- C6 amended: the folder a.png, B.JPG, skip.txt yields exactly two
FigureRecords with case-insensitive extension filtering and case-preserving
figure_ID, sorted by filename in the case-sensitive code-point order, so in
the order B.JPG then a.png; the written index carries exactly these figures. -/
theorem build_from_images_two_figures :
    build_from_images_figures "P7" ["a.png", "B.JPG", "skip.txt"]
      = [{ figure_ID := "B.JPG", caption := "", image_path := "data/research_center/P7/B.JPG" },
         { figure_ID := "a.png", caption := "", image_path := "data/research_center/P7/a.png" }]
    ∧ build_from_images "P7" (some ["a.png", "B.JPG", "skip.txt"]) []
      = [("P7_index.JSON",
          build_from_images_content "P7"
            (build_from_images_figures "P7" ["a.png", "B.JPG", "skip.txt"]))] :=
  ⟨by decide, rfl⟩

-- C7: index building is a deterministic full replace --------------------------

/-- C7: build_index_json writes to the deterministic path stem index JSON;
writing twice with the same arguments leaves the directory exactly as one
write does, the written content fully replaces whatever was there, and its
paper_title field is always the empty-string placeholder. -/
theorem build_index_json_full_replace (pdf_name stem : String) (figs : List FigureRecord)
    (meta : MetaFS) :
    build_index_json pdf_name stem figs (build_index_json pdf_name stem figs meta)
      = build_index_json pdf_name stem figs meta
    ∧ fsLookup (build_index_json pdf_name stem figs meta) (stem ++ "_index.JSON")
      = some (build_index_json_content pdf_name stem figs)
    ∧ topLookup (build_index_json_content pdf_name stem figs) "paper_title"
      = some (JVal.str "") := by
  refine ⟨?_, ?_, rfl⟩
  · unfold build_index_json
    exact fsWrite_idem ..
  · unfold build_index_json
    rw [lookup_fsWrite, if_pos rfl]

-- C8: the two index builders agree on the schema ------------------------------

/-- C8: for the same paper id, the records built by build_index_json and by
build_from_images have the same field set in the same order and the same
constant field values; with the same figure list and the synthesized pdf name
convention the two records are equal, so they differ only in the figure naming
convention and the synthesized pdf_id and pdf_path. -/
theorem index_schema_agreement (pid pdf_name : String) (figsA figsM : List FigureRecord) :
    topKeys (build_index_json_content pdf_name pid figsA)
        = topKeys (build_from_images_content pid figsM)
    ∧ topLookup (build_index_json_content pdf_name pid figsA) "access" = some (JVal.str "private")
    ∧ topLookup (build_from_images_content pid figsM) "access" = some (JVal.str "private")
    ∧ topLookup (build_index_json_content pdf_name pid figsA) "paper_access"
        = some (JVal.str "private")
    ∧ topLookup (build_from_images_content pid figsM) "paper_access" = some (JVal.str "private")
    ∧ topLookup (build_index_json_content pdf_name pid figsA) "paper_title" = some (JVal.str "")
    ∧ topLookup (build_from_images_content pid figsM) "paper_title" = some (JVal.str "")
    ∧ topLookup (build_index_json_content pdf_name pid figsA) "authors" = some (JVal.arr [])
    ∧ topLookup (build_from_images_content pid figsM) "authors" = some (JVal.arr [])
    ∧ topLookup (build_index_json_content pdf_name pid figsA) "year" = some JVal.null
    ∧ topLookup (build_from_images_content pid figsM) "year" = some JVal.null
    ∧ topLookup (build_index_json_content pdf_name pid figsA) "journal" = some (JVal.str "")
    ∧ topLookup (build_from_images_content pid figsM) "journal" = some (JVal.str "")
    ∧ topLookup (build_index_json_content pdf_name pid figsA) "citation"
        = some (JVal.obj [("APA", JVal.str "")])
    ∧ topLookup (build_from_images_content pid figsM) "citation"
        = some (JVal.obj [("APA", JVal.str "")])
    ∧ (∀ figs : List FigureRecord,
        build_index_json_content (pid ++ ".pdf") pid figs = build_from_images_content pid figs) := by
  refine ⟨rfl, rfl, rfl, rfl, rfl, rfl, rfl, rfl, rfl, rfl, rfl, rfl, rfl, rfl, rfl, ?_⟩
  intro figs
  unfold build_index_json_content build_from_images_content
  simp [String.append_assoc]

-- Raw-name and figure-name lemmas ---------------------------------------------

theorem digitChar_ne_underscore : ∀ m : Nat, m < 10 → Nat.digitChar m ≠ '_' := by decide

theorem underscore_notin_toDigitsCore :
    ∀ (fuel n : Nat) (acc : List Char), '_' ∉ acc → '_' ∉ Nat.toDigitsCore 10 fuel n acc := by
  intro fuel
  induction fuel with
  | zero => intro n acc h; exact h
  | succ f ih =>
    intro n acc h
    have hd : '_' ∉ (Nat.digitChar (n % 10) :: acc) := by
      intro hm
      rcases List.mem_cons.mp hm with h1 | h2
      · exact digitChar_ne_underscore (n % 10) (Nat.mod_lt n (by decide)) h1.symm
      · exact h h2
    by_cases hz : n / 10 = 0
    · simpa [Nat.toDigitsCore, hz] using hd
    · simpa [Nat.toDigitsCore, hz] using ih (n / 10) _ hd

theorem underscore_notin_repr (n : Nat) : '_' ∉ (Nat.repr n).data :=
  underscore_notin_toDigitsCore (n + 1) n [] (by decide)

theorem glob_figName (stem : String) (i : Nat) : globRawMatch stem (figName i) = false := by
  cases hb : globRawMatch stem (figName i)
  · rfl
  · exfalso
    unfold globRawMatch at hb
    have hpre : (rawPrefixStr stem).data.isPrefixOf (figName i).data = true :=
      ((Bool.and_eq_true _ _).mp ((Bool.and_eq_true _ _).mp hb).1).1
    have hsub : (rawPrefixStr stem).data ⊆ (figName i).data :=
      (List.isPrefixOf_iff_prefix.mp hpre).subset
    have hu : '_' ∈ (rawPrefixStr stem).data := by
      unfold rawPrefixStr
      rw [String.data_append]
      exact List.mem_append_right _ (by decide)
    have hmem : '_' ∈ (figName i).data := hsub hu
    unfold figName at hmem
    rw [String.data_append, String.data_append] at hmem
    have hrep : (toString i).data = (Nat.repr i).data := rfl
    rcases List.mem_append.mp hmem with hm | hm
    · rcases List.mem_append.mp hm with hm2 | hm2
      · exact absurd hm2 (by decide)
      · rw [hrep] at hm2
        exact underscore_notin_repr i hm2
    · exact absurd hm (by decide)

theorem glob_mkRawName (stem sfx : String) : globRawMatch stem (mkRawName stem sfx) = true := by
  unfold globRawMatch mkRawName
  refine (Bool.and_eq_true _ _).mpr ⟨(Bool.and_eq_true _ _).mpr ⟨?_, ?_⟩, ?_⟩
  · apply List.isPrefixOf_iff_prefix.mpr
    rw [String.data_append, String.data_append, List.append_assoc]
    exact List.prefix_append _ _
  · apply List.isSuffixOf_iff_suffix.mpr
    rw [String.data_append]
    exact List.suffix_append _ _
  · apply decide_eq_true
    rw [String.data_append, String.data_append, List.length_append, List.length_append]
    have h4 : (".png".data).length = 4 := by decide
    omega

theorem lookup_writeRaws (env : ExtractEnv) (stem : String) (fs : ImgFS) (name : String)
    (h : globRawMatch stem name = false) :
    fsLookup (writeRaws env stem fs) name = fsLookup fs name := by
  unfold writeRaws
  induction env.rawSuffixes generalizing fs with
  | nil => rfl
  | cons s t ih =>
    rw [List.foldl_cons, ih]
    rw [lookup_fsWrite, if_neg]
    intro he
    rw [he, glob_mkRawName] at h
    exact Bool.false_ne_true h.symm

theorem mem_rawsOf_glob (env : ExtractEnv) (stem : String) (fs : ImgFS) (r : String)
    (h : r ∈ rawsOf env stem fs) : globRawMatch stem r = true := by
  unfold rawsOf pySorted at h
  exact (List.mem_filter.mp ((List.mem_insertionSort _).mp h)).2

-- Renaming-loop lemmas ---------------------------------------------------------

theorem convertLoop_map_figure_ID (env : ExtractEnv) (stem : String) :
    ∀ (raws : List String) (idx : Nat) (fs : ImgFS),
      ((convertLoop env stem raws idx fs).1).map FigureRecord.figure_ID
        = (successIndices env.convertOk raws idx).map figName := by
  intro raws
  induction raws with
  | nil => intro idx fs; rfl
  | cons raw rest ih =>
    intro idx fs
    by_cases hok : env.convertOk raw
    · simp only [convertLoop, successIndices, hok, if_true, List.map_cons]
      exact congrArg _ (ih _ _)
    · simp only [convertLoop, successIndices, hok, Bool.false_eq_true, if_false]
      exact ih _ _

theorem lookup_convertLoop (env : ExtractEnv) (stem : String) (name : String)
    (hg : globRawMatch stem name = false) (hf : ∀ i : Nat, name ≠ figName i) :
    ∀ (raws : List String), (∀ r ∈ raws, globRawMatch stem r = true) →
      ∀ (idx : Nat) (fs : ImgFS),
        fsLookup (convertLoop env stem raws idx fs).2 name = fsLookup fs name := by
  intro raws
  induction raws with
  | nil => intro _ idx fs; rfl
  | cons raw rest ih =>
    intro hall idx fs
    have hraw : globRawMatch stem raw = true := hall raw (List.mem_cons_self _ _)
    have hrest : ∀ r ∈ rest, globRawMatch stem r = true :=
      fun r hr => hall r (List.mem_cons_of_mem _ hr)
    have hne : name ≠ raw := by
      intro he
      rw [he, hraw] at hg
      exact Bool.false_ne_true hg.symm
    by_cases hok : env.convertOk raw
    · simp only [convertLoop, hok, if_true]
      rw [ih hrest]
      rw [lookup_fsDelete _ _ _ hne, lookup_fsWrite, if_neg (hf idx)]
    · simp only [convertLoop, hok, Bool.false_eq_true, if_false]
      exact ih hrest _ _

theorem keys_convertLoop_glob (env : ExtractEnv) (stem : String) (name : String)
    (hg : globRawMatch stem name = true) :
    ∀ (raws : List String) (idx : Nat) (fs : ImgFS),
      name ∈ fsKeys (convertLoop env stem raws idx fs).2 →
      name ∈ fsKeys fs ∧ (name ∈ raws → env.convertOk name = false) := by
  intro raws
  induction raws with
  | nil => intro idx fs h; exact ⟨h, fun hm => absurd hm (List.not_mem_nil _)⟩
  | cons raw rest ih =>
    intro idx fs h
    by_cases hok : env.convertOk raw
    · simp only [convertLoop, hok, if_true] at h
      obtain ⟨h1, h2⟩ := ih _ _ h
      have h3 := (mem_keys_fsDelete _ _ _).mp h1
      rcases (mem_keys_fsWrite _ _ _ _).mp h3.1 with h5 | h5
      · exfalso
        rw [h5, glob_figName] at hg
        exact Bool.false_ne_true hg
      · refine ⟨h5.1, ?_⟩
        intro hm
        rcases List.mem_cons.mp hm with he | hm2
        · exact absurd he h3.2
        · exact h2 hm2
    · simp only [convertLoop, hok, Bool.false_eq_true, if_false] at h
      obtain ⟨h1, h2⟩ := ih _ _ h
      refine ⟨h1, ?_⟩
      intro hm
      rcases List.mem_cons.mp hm with he | hm2
      · rw [he]
        exact Bool.eq_false_iff.mpr hok
      · exact h2 hm2

theorem successIndices_all_ok (ok : String → Bool) :
    ∀ (l : List String) (i : Nat), (∀ r ∈ l, ok r = true) →
      successIndices ok l i = (List.range l.length).map (fun j => j + i) := by
  intro l
  induction l with
  | nil => intro i _; rfl
  | cons r t ih =>
    intro i hall
    have hr : ok r = true := hall r (List.mem_cons_self _ _)
    simp only [successIndices, hr, if_true, List.length_cons]
    rw [ih (i + 1) (fun x hx => hall x (List.mem_cons_of_mem _ hx))]
    rw [List.range_succ_eq_map]
    simp only [List.map_cons, List.map_map, Nat.zero_add]
    congr 1
    apply List.map_congr_left
    intro j _
    simp [Function.comp]
    omega

-- C3: figure numbering ---------------------------------------------------------

/-- C3 counterexample: with two raw images for stem P1 where the first
re-encode fails, exactly one image is converted (k = 1) but its figure_ID is
F2.png, not F1.png: the failed image consumed sequence number 1, so numbering
is not the dense sequence F1 .. Fk the claim states. -/
theorem extract_images_numbering_counterexample :
    (extract_images envC3 "P1" []).1.map FigureRecord.figure_ID = ["F2.png"]
    ∧ (extract_images envC3 "P1" []).1.length = 1
    ∧ ["F2.png"] ≠ ["F1.png"] :=
  ⟨by decide, by decide, by decide⟩

/-- C3 amended: each successfully converted image receives figure_ID F p where
p is its 1-based position among all the sorted raw images, failed ones
included, because enumerate assigns the index before the conversion is
attempted; a raw image whose re-encode fails therefore consumes its sequence
number and leaves a gap.  The names are the dense sequence F1 .. Fk exactly
when every raw image converts successfully. -/
theorem extract_images_numbering (env : ExtractEnv) (stem : String) (fs : ImgFS) :
    (extract_images env stem fs).1.map FigureRecord.figure_ID
      = (successIndices env.convertOk (rawsOf env stem fs) 1).map figName
    ∧ ((∀ r ∈ rawsOf env stem fs, env.convertOk r = true) →
        (extract_images env stem fs).1.map FigureRecord.figure_ID
          = (List.range (rawsOf env stem fs).length).map (fun j => figName (j + 1))) := by
  constructor
  · unfold extract_images
    exact convertLoop_map_figure_ID env stem _ 1 _
  · intro hall
    unfold extract_images
    rw [convertLoop_map_figure_ID, successIndices_all_ok _ _ _ hall, List.map_map]
    rfl

/-- Witness for the amended C3 on a run where every conversion succeeds. -/
theorem extract_images_numbering_witness :
    (extract_images envC4 "P2" fsC4).1.map FigureRecord.figure_ID
      = (List.range (rawsOf envC4 "P2" fsC4).length).map (fun j => figName (j + 1)) :=
  (extract_images_numbering envC4 "P2" fsC4).2 (by decide)

-- C4: which files extract_images touches ---------------------------------------

/-- C4 counterexample: the images directory already holds F1.png written for
another document; running extract_images for stem P2 with one successful raw
image overwrites that file, so extraction is not scoped to the processed
document's stem. -/
theorem extract_images_frame_counterexample :
    fsLookup fsC4 "F1.png" = some "figureP1"
    ∧ fsLookup (extract_images envC4 "P2" fsC4).2 "F1.png" = some "imageP2"
    ∧ (some "imageP2" : Option String) ≠ some "figureP1" :=
  ⟨by decide, by decide, by decide⟩

/-- C4 amended: every file whose content extract_images changes (creates,
overwrites or deletes) is either a raw file matching the processed stem's RAW
glob or one of the final figure names F i png.  The raw intermediates are
stem-scoped, but the final figure names carry no stem, so processing another
document can overwrite this document's figure files. -/
theorem extract_images_frame (env : ExtractEnv) (stem : String) (fs : ImgFS) (name : String)
    (h : fsLookup (extract_images env stem fs).2 name ≠ fsLookup fs name) :
    globRawMatch stem name = true ∨ ∃ i : Nat, name = figName i := by
  by_contra hc
  push_neg at hc
  obtain ⟨hg, hf⟩ := hc
  have hg2 : globRawMatch stem name = false := by
    cases hgb : globRawMatch stem name
    · rfl
    · exact absurd hgb hg
  apply h
  unfold extract_images
  rw [lookup_convertLoop env stem name hg2 hf _ (fun r hr => mem_rawsOf_glob env stem fs r hr) _ _]
  rw [lookup_writeRaws env stem _ name hg2]
  unfold cleanRaws
  exact lookup_fsFilterKeys _ fs name (by simp [hg2])

/-- Witness for the amended C4 at the concrete overwrite of F1.png. -/
theorem extract_images_frame_witness :
    globRawMatch "P2" "F1.png" = true ∨ ∃ i : Nat, "F1.png" = figName i :=
  extract_images_frame envC4 "P2" fsC4 "F1.png" (by decide)

-- C5: raw intermediates after a run --------------------------------------------

/-- C5 counterexample: with one raw image for stem P3 whose re-encode fails,
the raw file is still present after the run, contradicting the claim that no
stem RAW png file remains regardless of which conversions fail. -/
theorem extract_images_raw_residue_counterexample :
    "P3_RAW_-000.png" ∈ fsKeys (extract_images envC5 "P3" []).2
    ∧ globRawMatch "P3" "P3_RAW_-000.png" = true :=
  ⟨by decide, by decide⟩

/-- C5 amended: pre-existing raw files of the stem are deleted up front, and
every raw-glob file still present after the run is a raw file of this run
whose re-encode failed (the unlink sits after the save inside the try block,
so a failed conversion leaves its raw file behind until the next run); in
particular when every conversion succeeds no raw file of the stem remains. -/
theorem extract_images_raw_residue (env : ExtractEnv) (stem : String) (fs : ImgFS) :
    (∀ name, globRawMatch stem name = true →
        name ∈ fsKeys (extract_images env stem fs).2 →
        name ∈ rawsOf env stem fs ∧ env.convertOk name = false)
    ∧ ((∀ r ∈ rawsOf env stem fs, env.convertOk r = true) →
        ∀ name ∈ fsKeys (extract_images env stem fs).2, globRawMatch stem name = false) := by
  have main : ∀ name, globRawMatch stem name = true →
      name ∈ fsKeys (extract_images env stem fs).2 →
      name ∈ rawsOf env stem fs ∧ env.convertOk name = false := by
    intro name hg hmem
    unfold extract_images at hmem
    obtain ⟨h1, h2⟩ := keys_convertLoop_glob env stem name hg _ _ _ hmem
    have hmemraws : name ∈ rawsOf env stem fs := by
      unfold rawsOf pySorted
      exact (List.mem_insertionSort _).mpr (List.mem_filter.mpr ⟨h1, hg⟩)
    exact ⟨hmemraws, h2 hmemraws⟩
  refine ⟨main, ?_⟩
  intro hall name hmem
  cases hgb : globRawMatch stem name
  · rfl
  · exfalso
    obtain ⟨hr, hfail⟩ := main name hgb hmem
    rw [hall name hr] at hfail
    exact Bool.false_ne_true hfail.symm

/-- Witness for the amended C5: the surviving raw file of the failed
conversion is one of this run's raw files and its conversion failed, and on
an all-successful run no file of the stem's raw glob remains. -/
theorem extract_images_raw_residue_witness :
    ("P3_RAW_-000.png" ∈ rawsOf envC5 "P3" [] ∧ envC5.convertOk "P3_RAW_-000.png" = false)
    ∧ (∀ name ∈ fsKeys (extract_images envC4 "P2" fsC4).2, globRawMatch "P2" name = false) :=
  ⟨(extract_images_raw_residue envC5 "P3" []).1 "P3_RAW_-000.png" (by decide) (by decide),
   (extract_images_raw_residue envC4 "P2" fsC4).2 (by decide)⟩

-- Batch-loop lemmas ------------------------------------------------------------

theorem ocr_loop_map_eventPdf (env : BatchEnv) :
    ∀ l : List String, (ocr_loop env l).map eventPdf = l := by
  intro l
  induction l with
  | nil => rfl
  | cons p t ih =>
    by_cases hd : is_digital_pdf (docCmdResult (env.doc p))
    · simp only [ocr_loop, hd, if_true, List.map_cons, eventPdf]
      exact congrArg _ ih
    · simp only [ocr_loop, hd, Bool.false_eq_true, if_false, List.map_cons, eventPdf]
      exact congrArg _ ih

theorem extract_loop_trace_map (env : BatchEnv) :
    ∀ (l : List String) (st : PipeState), ((extract_loop env l st).2).map Prod.fst = l := by
  intro l
  induction l with
  | nil => intro st; rfl
  | cons p t ih =>
    intro st
    by_cases hd : is_digital_pdf (docCmdResult (env.doc p))
    · simp only [extract_loop, hd, if_true, List.map_cons]
      exact congrArg _ (ih _)
    · simp only [extract_loop, hd, Bool.false_eq_true, if_false, List.map_cons]
      exact congrArg _ (ih _)

theorem extract_loop_meta_mono (env : BatchEnv) :
    ∀ (l : List String) (st : PipeState) (name : String),
      name ∈ fsKeys st.meta → name ∈ fsKeys (extract_loop env l st).1.meta := by
  intro l
  induction l with
  | nil => intro st name h; exact h
  | cons p t ih =>
    intro st name h
    have hw : ∀ (figs : List FigureRecord),
        name ∈ fsKeys (build_index_json p (pathStem p) figs st.meta) := by
      intro figs
      unfold build_index_json
      apply (mem_keys_fsWrite _ _ _ _).mpr
      by_cases he : name = pathStem p ++ "_index.JSON"
      · exact Or.inl he
      · exact Or.inr ⟨h, he⟩
    by_cases hd : is_digital_pdf (docCmdResult (env.doc p))
    · simp only [extract_loop, hd, if_true]
      exact ih _ name (hw _)
    · simp only [extract_loop, hd, Bool.false_eq_true, if_false]
      exact ih _ name (hw _)

theorem extract_loop_index_key (env : BatchEnv) :
    ∀ (l : List String) (st : PipeState) (pdf : String), pdf ∈ l →
      (pathStem pdf ++ "_index.JSON") ∈ fsKeys (extract_loop env l st).1.meta := by
  intro l
  induction l with
  | nil => intro st pdf h; exact absurd h (List.not_mem_nil _)
  | cons p t ih =>
    intro st pdf h
    rcases List.mem_cons.mp h with he | hm
    · subst he
      have hkey : ∀ (figs : List FigureRecord),
          (pathStem pdf ++ "_index.JSON")
            ∈ fsKeys (build_index_json pdf (pathStem pdf) figs st.meta) := by
        intro figs
        unfold build_index_json
        exact (mem_keys_fsWrite _ _ _ _).mpr (Or.inl rfl)
      by_cases hd : is_digital_pdf (docCmdResult (env.doc pdf))
      · simp only [extract_loop, hd, if_true]
        exact extract_loop_meta_mono env t _ _ (hkey _)
      · simp only [extract_loop, hd, Bool.false_eq_true, if_false]
        exact extract_loop_meta_mono env t _ _ (hkey _)
    · by_cases hd : is_digital_pdf (docCmdResult (env.doc p))
      · simp only [extract_loop, hd, if_true]
        exact ih _ pdf hm
      · simp only [extract_loop, hd, Bool.false_eq_true, if_false]
        exact ih _ pdf hm

theorem extract_loop_trace_nondigital (env : BatchEnv) :
    ∀ (l : List String) (st : PipeState) (pdf : String), pdf ∈ l →
      is_digital_pdf (docCmdResult (env.doc pdf)) = false →
      (pdf, ([] : List FigureRecord)) ∈ (extract_loop env l st).2 := by
  intro l
  induction l with
  | nil => intro st pdf h _; exact absurd h (List.not_mem_nil _)
  | cons p t ih =>
    intro st pdf h hd
    rcases List.mem_cons.mp h with he | hm
    · subst he
      simp only [extract_loop, hd, Bool.false_eq_true, if_false]
      exact List.mem_cons_self _ _
    · by_cases hdp : is_digital_pdf (docCmdResult (env.doc p))
      · simp only [extract_loop, hdp, if_true]
        exact List.mem_cons_of_mem _ (ih _ pdf hm hd)
      · simp only [extract_loop, hdp, Bool.false_eq_true, if_false]
        exact List.mem_cons_of_mem _ (ih _ pdf hm hd)

-- C9: batch order, per-document continuation, empty input ----------------------

/-- C9: both batch operations visit the input pdfs in sorted filename order,
producing one trace entry per document whatever each document's classification,
OCR or extraction outcome is (so a single failing document never aborts the
batch), and with an empty input directory they return with no trace and the
directories unchanged, writing no metadata file. -/
theorem batch_sorted_and_empty (env : BatchEnv) (st : PipeState) :
    (ocr_only_all env).map eventPdf = pySorted env.inputPdfs
    ∧ ((extract_images_and_json_all env st).2).map Prod.fst = pySorted env.inputPdfs
    ∧ ocr_only_all { env with inputPdfs := [] } = []
    ∧ extract_images_and_json_all { env with inputPdfs := [] } st = (st, []) :=
  ⟨ocr_loop_map_eventPdf env _, extract_loop_trace_map env _ st, rfl, rfl⟩

-- C10: every pdf gets an index, non-digital ones an empty one -------------------

/-- C10: the extract-and-index batch persists an index file for every input
pdf, and a pdf classified as non-digital gets its index built from the empty
figure list, so downstream consumers see empty-figure indexes for scanned
documents. -/
theorem extract_all_index_every_pdf (env : BatchEnv) (st : PipeState) (pdf : String)
    (h : pdf ∈ env.inputPdfs) :
    (pathStem pdf ++ "_index.JSON") ∈ fsKeys (extract_images_and_json_all env st).1.meta
    ∧ (is_digital_pdf (docCmdResult (env.doc pdf)) = false →
        (pdf, ([] : List FigureRecord)) ∈ (extract_images_and_json_all env st).2) := by
  have hs : pdf ∈ pySorted env.inputPdfs := (List.mem_insertionSort _).mpr h
  exact ⟨extract_loop_index_key env _ st pdf hs,
         fun hd => extract_loop_trace_nondigital env _ st pdf hs hd⟩

/-- Witness for C10 on a one-document batch whose font report is empty. -/
theorem extract_all_index_every_pdf_witness :
    (pathStem "s1.pdf" ++ "_index.JSON") ∈ fsKeys (extract_images_and_json_all envW10 stW10).1.meta
    ∧ ("s1.pdf", ([] : List FigureRecord)) ∈ (extract_images_and_json_all envW10 stW10).2 :=
  ⟨(extract_all_index_every_pdf envW10 stW10 "s1.pdf" (by decide)).1,
   (extract_all_index_every_pdf envW10 stW10 "s1.pdf" (by decide)).2 (by decide)⟩
